import Mathlib

/-!
Verification development for the `central`/`configd` configuration library.

The Python sources are shallowly embedded: Python values become the
inductive `PVal` (dictionaries carry a flag recording whether they are
plain `dict`s or `IgnoreCaseDict`s, since the code distinguishes the two
with `isinstance`/`type` checks), fallible code returns `Except`, and the
mutable `self._data` field of a config becomes an explicit state record.
-/

/-- A Python value as stored by the configuration sources: strings, ints,
booleans, `None`, lists, and dictionaries.  A dictionary carries `true`
when it is an `IgnoreCaseDict` (case-insensitive lookup) and `false` when
it is a plain `dict` (exact lookup); entries keep insertion order. -/
inductive PVal where
  | pstr : String → PVal
  | pint : Int → PVal
  | pbool : Bool → PVal
  | pnone : PVal
  | plist : List PVal → PVal
  | pdict : Bool → List (String × PVal) → PVal

/-- Python `str.lower()` restricted to ASCII case folding, written over
the character list so that it evaluates inside the kernel. -/
def pyToLower (s : String) : String := String.mk (s.toList.map Char.toLower)

/-- Key comparison used by a dictionary: case-folded for an
`IgnoreCaseDict` (`ic = true`), exact for a plain `dict`. -/
def strKeyEq (ic : Bool) (a b : String) : Bool :=
  if ic then pyToLower a = pyToLower b else a = b

/-- `d.get(key)` of a Python dict with default `None`: the first entry
whose key matches under the dictionary's comparison, else `None`. -/
def entGet (ic : Bool) : List (String × PVal) → String → PVal
  | [], _ => .pnone
  | (k, v) :: rest, key => if strKeyEq ic k key then v else entGet ic rest key

/-- `d[key] = v` of a Python dict: overwrite the first matching entry
(keeping the originally inserted key's casing), else append. -/
def entSet (ic : Bool) : List (String × PVal) → String → PVal → List (String × PVal)
  | [], key, v => [(key, v)]
  | (k, w) :: rest, key, v =>
      if strKeyEq ic k key then (k, v) :: rest else (k, w) :: entSet ic rest key v

/-- `d.pop(key, None)` of a Python dict: remove the first matching entry,
returning its value when one was present. -/
def entPop (ic : Bool) : List (String × PVal) → String → Option PVal × List (String × PVal)
  | [], _ => (none, [])
  | (k, v) :: rest, key =>
      if strKeyEq ic k key then (some v, rest)
      else
        let r := entPop ic rest key
        (r.1, (k, v) :: r.2)

/-- `value.get(key)` on a nested value: dictionary lookup with the
dictionary's own key comparison; only reached on mappings in the source. -/
def PVal.get : PVal → String → PVal
  | .pdict ic es, key => entGet ic es key
  | _, _ => .pnone

/-- Python truthiness of a value (`if value:`). -/
def pyTruthy : PVal → Bool
  | .pstr s => s ≠ ""
  | .pint n => n ≠ 0
  | .pbool b => b
  | .pnone => false
  | .plist xs => ¬xs.isEmpty
  | .pdict _ es => ¬es.isEmpty

/-- Split a string at every occurrence of a single delimiter character,
as Python `str.split(c)` does (`"a.b".split "." = ["a","b"]`,
`"a".split "." = ["a"]`). -/
def pySplitChars (delim : Char) : List Char → List Char → List String
  | [], acc => [String.mk acc.reverse]
  | c :: rest, acc =>
      if c = delim then String.mk acc.reverse :: pySplitChars delim rest []
      else pySplitChars delim rest (c :: acc)

/-- Python `s.split(c)` for a one-character separator. -/
def pySplit (delim : Char) (s : String) : List String :=
  pySplitChars delim s.toList []


/-- `get_raw` of `BaseDataConfig` (central/config/core.py): exact
(case-insensitive) lookup of the whole key first; when that yields
`None`, the key is split on the nested delimiter `'.'` and the backing
map is walked through successive nested lookups (`walkNested`). -/
def walkNested : PVal → List String → PVal
  | v, [] => v
  | .pnone, _ :: _ => .pnone
  | .pdict ic es, p :: ps => walkNested (entGet ic es p) ps
  | _, _ :: _ => .pnone

/-- `BaseDataConfig.get_raw` over the backing `IgnoreCaseDict` entries. -/
def get_raw (data : List (String × PVal)) (key : String) : PVal :=
  match entGet true data key with
  | .pnone =>
      let paths := pySplit '.' key
      if key = paths.headD "" then .pnone
      else walkNested (entGet true data (paths.headD "")) paths.tail
  | v => v


/-- The type argument of `get_value`: one constructor per Python type the
typed getters of `BaseConfig` request (`object` is the generic marker). -/
inductive PyType where
  | tobject : PyType
  | tbool : PyType
  | tdict : PyType
  | tint : PyType
  | tfloat : PyType
  | tlist : PyType
  | tstr : PyType
deriving DecidableEq

/-- The `default` argument of `get_value`: either a plain value or a
zero-argument callable evaluated lazily on a miss. -/
inductive PyDefault where
  | val : PVal → PyDefault
  | func : (Unit → PVal) → PyDefault

/-- `if callable(default): return default()` / `return default`. -/
def evalDefault : PyDefault → PVal
  | .val v => v
  | .func f => f ()

/-- `BaseDataConfig.get_value`: raw lookup; on a miss the (lazily
evaluated) default; otherwise strings are interpolated, and any type other
than the generic `object` marker goes through the decoder.  The
interpolator (`BashInterpolator.resolve` with the configured lookup) and
decoder (`Decoder.decode`), whose sources are outside this repository
excerpt, are abstract function parameters. -/
def get_value (interp : String → String) (decode : PVal → PyType → PVal)
    (data : List (String × PVal)) (key : String) (ty : PyType)
    (default : PyDefault) : PVal :=
  match get_raw data key with
  | .pnone => evalDefault default
  | .pstr s =>
      let v := PVal.pstr (interp s)
      if ty = .tobject then v else decode v ty
  | v => if ty = .tobject then v else decode v ty

/-- `BaseConfig.__contains__`: `self.get_raw(key) is not None`. -/
def configContains (data : List (String × PVal)) (key : String) : Bool :=
  match get_raw data key with
  | .pnone => false
  | _ => true

/-- `BaseConfig.__getitem__`: `get_value(key, object)`; a `None` result
raises `KeyError`, modelled as `none`. -/
def configGetItem (interp : String → String) (decode : PVal → PyType → PVal)
    (data : List (String × PVal)) (key : String) : Option PVal :=
  match get_value interp decode data key .tobject (.val .pnone) with
  | .pnone => none
  | v => some v

/-- A child `abc.Config` as `ChainConfig` sees it: its `get_raw` and its
`get_value` (called by the chain with no default, so a miss is `None`). -/
structure ConfigView where
  raw : String → PVal
  value : String → PyType → PVal

/-- The loop body of `ChainConfig.get_raw` over the already reversed
child list: first child whose raw value is not `None` wins. -/
def chainGetRawRev (key : String) : List ConfigView → PVal
  | [] => .pnone
  | c :: rest =>
      match c.raw key with
      | .pnone => chainGetRawRev key rest
      | v => v

/-- `ChainConfig.get_raw`: children searched in reverse order. -/
def chainGetRaw (configs : List ConfigView) (key : String) : PVal :=
  chainGetRawRev key configs.reverse

/-- The loop body of `ChainConfig.get_value` over the reversed children. -/
def chainGetValueRev (key : String) (ty : PyType) : List ConfigView → Option PVal
  | [] => none
  | c :: rest =>
      match c.value key ty with
      | .pnone => chainGetValueRev key ty rest
      | v => some v

/-- `ChainConfig.get_value`: children searched in reverse order, falling
back to the (lazily evaluated) default when every child misses. -/
def chainGetValue (configs : List ConfigView) (key : String) (ty : PyType)
    (default : PyDefault) : PVal :=
  match chainGetValueRev key ty configs.reverse with
  | some v => v
  | none => evalDefault default

/-- The `ConfigView` of a `BaseDataConfig` child (e.g. a `MemoryConfig`)
holding `data`, with the given interpolator and decoder. -/
def dataConfigView (interp : String → String) (decode : PVal → PyType → PVal)
    (data : List (String × PVal)) : ConfigView :=
  { raw := get_raw data
  , value := fun key ty => get_value interp decode data key ty (.val .pnone) }

/-- Python `s.find(c)`: index of the first occurrence, over characters. -/
def charFindIdx (c : Char) : List Char → Option Nat
  | [] => none
  | x :: rest => if x = c then some 0 else (charFindIdx c rest).map (· + 1)

/-- Python `s.find(c)` (`none` standing for `-1`). -/
def pyFind (s : String) (c : Char) : Option Nat := charFindIdx c s.toList

/-- Python `s.strip()`: whitespace removed from both ends. -/
def pyStrip (s : String) : String :=
  String.mk (((s.toList.dropWhile Char.isWhitespace).reverse.dropWhile
    Char.isWhitespace).reverse)

/-- Python `s[i:]` (character indices). -/
def pySliceFrom (s : String) (i : Nat) : String := String.mk (s.toList.drop i)

/-- Python `s[a:b]` (character indices, empty when `b ≤ a`). -/
def pySlice (s : String) (a b : Nat) : String :=
  String.mk ((s.toList.drop a).take (b - a))

/-- Python `s.startswith(p)`. -/
def strStartsWith (s p : String) : Bool := p.toList.isPrefixOf s.toList

/-- Python `c in s` for a single character. -/
def pyContains (s : String) (c : Char) : Bool := s.toList.any (· = c)

/-- The token loop of `CommandLineConfig.load`: each argument token is
examined for a leading `--`/`-` (fixing where the key starts) and a `=`
separator; without `=` the next token is consumed as the value.  The
accumulating dictionary is the `IgnoreCaseDict` being filled. -/
def parseArgsLoop (data : List (String × PVal)) :
    List String → Except String (List (String × PVal))
  | [] => .ok data
  | currentArg :: rest =>
      let keyStartIndex : Nat :=
        if strStartsWith currentArg "--" then 2
        else if strStartsWith currentArg "-" then 1
        else 0
      match pyFind currentArg '=' with
      | none =>
          if keyStartIndex = 0 then
            .error ("Unrecognized argument " ++ currentArg ++ " format")
          else
            let key := pySliceFrom currentArg keyStartIndex
            match rest with
            | [] => .error ("Value for argument " ++ key ++ " is missing")
            | v :: rest2 => parseArgsLoop (entSet true data key (.pstr v)) rest2
      | some separator =>
          let key := pyStrip (pySlice currentArg keyStartIndex separator)
          if key = "" then
            .error ("Unrecognized argument " ++ currentArg ++ " format")
          else
            let v := pyStrip (pySliceFrom currentArg (separator + 1))
            parseArgsLoop (entSet true data key (.pstr v)) rest

/-- `CommandLineConfig.load` on an argument list (`sys.argv[1:]`),
returning the parsed `IgnoreCaseDict` entries. -/
def commandLineParse (args : List String) : Except String (List (String × PVal)) :=
  parseArgsLoop [] args


/-- `IniReader.read` (configd/readers.py): from the section/option/value
structure the `ConfigParser` produced, it builds a two-level structure of
plain `dict`s (`data = {}`, `data_section = data[section] = {}`) whose
leaves are the raw option strings (`parser.get(section, option, raw=True)`). -/
def iniRead (sections : List (String × List (String × String))) : PVal :=
  .pdict false (sections.map fun sec =>
    (sec.1, PVal.pdict false (sec.2.map fun opt => (opt.1, PVal.pstr opt.2))))

/-- The Python runtime type of a value, as compared by
`type(src_value) != type(dst_value)` in `merge_properties`: a plain
`dict` and an `IgnoreCaseDict` are different types. -/
inductive PTypeTag where
  | tagStr : PTypeTag
  | tagInt : PTypeTag
  | tagBool : PTypeTag
  | tagNoneType : PTypeTag
  | tagList : PTypeTag
  | tagDict : Bool → PTypeTag
deriving DecidableEq

/-- `type(v)` of an embedded value. -/
def ptype : PVal → PTypeTag
  | .pstr _ => .tagStr
  | .pint _ => .tagInt
  | .pbool _ => .tagBool
  | .pnone => .tagNoneType
  | .plist _ => .tagList
  | .pdict ic _ => .tagDict ic

/-- `v is None` as a boolean. -/
def pvalIsNone : PVal → Bool
  | .pnone => true
  | _ => false

/-- The entries of a dictionary value (empty for non-dictionaries; only
used under a dictionary type guard). -/
def pvalEntries : PVal → List (String × PVal)
  | .pdict _ es => es
  | _ => []

/-- A measure of a dict's entries that bounds the recursion depth of the
merge loop: nested dict values contribute their own measure. -/
def entsSize : List (String × PVal) → Nat
  | [] => 1
  | (_, PVal.pdict _ es) :: rest => 3 + entsSize es + entsSize rest
  | (_, PVal.pstr _) :: rest => 2 + entsSize rest
  | (_, PVal.pint _) :: rest => 2 + entsSize rest
  | (_, PVal.pbool _) :: rest => 2 + entsSize rest
  | (_, PVal.pnone) :: rest => 2 + entsSize rest
  | (_, PVal.plist _) :: rest => 2 + entsSize rest

/-- The per-key loop of `merge_properties` (configd/utils.py) over the
source dict's entries (`for key in src.keys()`), mutating the destination
(whose own key comparison is `icd`): a `None` on either side adopts the
source value; a differing runtime type keeps the destination (`continue`);
two plain `dict`s merge recursively (where an empty destination adopts the
source wholesale, `dst.update(src)`); otherwise the source overwrites.
The extra fuel argument makes the recursion structural; the wrapper below
supplies `entsSize src`, which `mergePropsFuel_congr` shows is enough fuel
for the recursion never to hit the fuel cutoff. -/
def mergePropsFuel : Nat → Bool → List (String × PVal) → List (String × PVal) →
    List (String × PVal)
  | 0, _, dst, _ => dst
  | fuel + 1, icd, dst, src =>
      match src with
      | [] => dst
      | (key, srcVal) :: rest =>
          let dstVal := entGet icd dst key
          let dst2 :=
            if pvalIsNone srcVal || pvalIsNone dstVal then entSet icd dst key srcVal
            else if ptype srcVal ≠ ptype dstVal then dst
            else if ptype dstVal = .tagDict false then
              entSet icd dst key (.pdict false
                (if (pvalEntries dstVal).isEmpty then pvalEntries srcVal
                 else mergePropsFuel fuel false (pvalEntries dstVal) (pvalEntries srcVal)))
            else entSet icd dst key srcVal
          mergePropsFuel fuel icd dst2 rest

/-- The per-key loop of `merge_properties`, at sufficient fuel. -/
def merge_properties_entries (icd : Bool) (dst src : List (String × PVal)) :
    List (String × PVal) :=
  mergePropsFuel (entsSize src) icd dst src

/-- `merge_properties(dst, src)` on two dictionary values. -/
def merge_properties (dst src : PVal) : PVal :=
  match dst, src with
  | .pdict icd dd, .pdict _ sd =>
      .pdict icd (if dd.isEmpty then sd else merge_properties_entries icd dd sd)
  | d, _ => d

/-- The value `merge_properties` leaves at one key, in terms of the two
sides' values there (`None` standing for an absent key as `dict.get`
does); used to characterise the per-key behaviour of the loop. -/
def mergeOneVal (dstVal srcVal : PVal) : PVal :=
  if pvalIsNone srcVal || pvalIsNone dstVal then srcVal
  else if ptype srcVal ≠ ptype dstVal then dstVal
  else if ptype dstVal = .tagDict false then
    .pdict false
      (if (pvalEntries dstVal).isEmpty then pvalEntries srcVal
       else merge_properties_entries false (pvalEntries dstVal) (pvalEntries srcVal))
  else srcVal

/-- The claim's three-way partition of values for its "kind of container"
mismatch rule: map vs list vs scalar.  This follows the claim's words, to
be compared against the code's exact-runtime-type rule. -/
inductive ContainerKind where
  | kmap : ContainerKind
  | klist : ContainerKind
  | kscalar : ContainerKind
deriving DecidableEq

/-- The container kind of a value per the claim's wording. -/
def containerKind : PVal → ContainerKind
  | .pdict _ _ => .kmap
  | .plist _ => .klist
  | _ => .kscalar

/-- Modelled from the spec: `merge_dict` of `central/utils.py` is not
under `src/` (only its import and call sites in `central/config/core.py`
are).  Per §4.6 it is the variadic layering merge used by File/Url/Merge
sources: applied pairwise across the source mappings in order, recursing
into same-shaped nested maps (last source wins per leaf key) and plainly
overwriting otherwise. -/
def merge_dict_pair (dst src : List (String × PVal)) : List (String × PVal) :=
  match src with
  | [] => dst
  | (key, srcVal) :: rest =>
      let newVal :=
        match entGet true dst key, srcVal with
        | .pdict icd dd, .pdict _ sd => PVal.pdict icd (merge_dict_pair dd sd)
        | _, sv => sv
      merge_dict_pair (entSet true dst key newVal) rest
termination_by sizeOf src

/-- Modelled from the spec: the variadic entry point
`merge_dict(data, *sources)`. -/
def merge_dict (dst : List (String × PVal)) (srcs : List (List (String × PVal))) :
    List (String × PVal) :=
  srcs.foldl merge_dict_pair dst

/-- A format reader, as named in the global reader registry. -/
inductive ReaderKind where
  | ini : ReaderKind
  | json : ReaderKind
  | yaml : ReaderKind
deriving DecidableEq

/-- The reader registry after module initialisation (configd/readers.py
registers `ini`, `json` and `yaml` at the bottom of the module). -/
def defaultReaders : List (String × ReaderKind) :=
  [("ini", .ini), ("json", .json), ("yaml", .yaml)]

/-- `get_reader(name)`: plain (case-sensitive) lookup in the registry. -/
def get_reader : List (String × ReaderKind) → String → Option ReaderKind
  | [], _ => none
  | (n, r) :: rest, name => if n = name then some r else get_reader rest name

/-- Python `s.rfind(c)`: index of the last occurrence. -/
def charRFindIdx (c : Char) : List Char → Option Nat
  | [] => none
  | x :: rest =>
      match charRFindIdx c rest with
      | some i => some (i + 1)
      | none => if x = c then some 0 else none

/-- Python `s.rfind(c)` over a string (`none` standing for `-1`). -/
def pyRFind (s : String) (c : Char) : Option Nat := charRFindIdx c s.toList

/-- Python `s.rstrip(c)` for a single character. -/
def pyRStrip (s : String) (c : Char) : String :=
  String.mk ((s.toList.reverse.dropWhile (· = c)).reverse)

/-- The candidate reader names `UrlConfig._get_reader` collects: from the
content type (parameters after `';'` stripped; then the last segment
after `'.'`, else after `'-'`, else after `'/'`, in that priority order),
then from a file-extension-like suffix of the url path (only when the
last `'/'` of the stripped url sits past index 10, to skip the scheme's
own slashes). -/
def urlReaderNames (url contentType : String) : List String :=
  let names1 :=
    if contentType ≠ "" then
      let ct :=
        if pyContains contentType ';' then (pySplit ';' contentType).headD ""
        else contentType
      if pyContains ct '.' then [(pySplit '.' ct).getLastD ""]
      else if pyContains ct '-' then [(pySplit '-' ct).getLastD ""]
      else if pyContains ct '/' then [(pySplit '/' ct).getLastD ""]
      else []
    else []
  let path := pyRStrip (pyStrip url) '/'
  let names2 :=
    match pyRFind path '/' with
    | some i =>
        if 10 < i then
          let path2 := pySliceFrom path i
          if pyContains path2 '.' then [(pySplit '.' path2).getLastD ""] else []
        else []
    | none => []
  names1 ++ names2

/-- The final loop of `UrlConfig._get_reader`: the first collected name
with a registered reader wins. -/
def findReaderByNames (registry : List (String × ReaderKind)) :
    List String → Option ReaderKind
  | [] => none
  | n :: rest =>
      match get_reader registry n with
      | some r => some r
      | none => findReaderByNames registry rest

/-- `UrlConfig._get_reader(url, content_type)`. -/
def urlGetReader (registry : List (String × ReaderKind)) (url contentType : String) :
    Except String ReaderKind :=
  match findReaderByNames registry (urlReaderNames url contentType) with
  | some r => .ok r
  | none =>
      .error ("Response from " ++ url ++ " provided content type " ++ contentType ++
        " which is not supported")

/-- The pair scan of `UrlConfig._get_encoding` over the `';'`-delimited
segments after the mime type: the first well-formed `charset=value` pair
with a nonempty value wins. -/
def urlGetEncodingPairs (dflt : String) : List String → String
  | [] => dflt
  | pair :: rest =>
      let kv := pySplit '=' pair
      if kv.length ≠ 2 then urlGetEncodingPairs dflt rest
      else
        let key := pyStrip (kv.headD "")
        let v := pyStrip (kv.getLastD "")
        if key = "charset" ∧ v ≠ "" then v else urlGetEncodingPairs dflt rest

/-- `UrlConfig._get_encoding(content_type, default)`. -/
def urlGetEncoding (contentType : String) (dflt : String) : String :=
  if contentType = "" then dflt
  else urlGetEncodingPairs dflt (pySplit ';' contentType).tail

/-- Python `s.rfind` over a set of characters: the last index holding any
of them.  This formalises the claim's "after the last `'.'`, `'-'`, or
`'/'` separator" reading, for comparison with `urlReaderNames`. -/
def charRFindAny (seps : List Char) : List Char → Option Nat
  | [] => none
  | x :: rest =>
      match charRFindAny seps rest with
      | some i => some (i + 1)
      | none => if seps.contains x then some 0 else none

/-- The subtype as the claim words it: the text after the last occurrence
of any of `'.'`, `'-'`, `'/'` in the parameter-stripped content type. -/
def claimSubtype (contentType : String) : String :=
  let ct := (pySplit ';' contentType).headD ""
  match charRFindAny ['.', '-', '/'] ct.toList with
  | some i => pySliceFrom ct (i + 1)
  | none => ct

/-- The observable fields of a data-holding config: the backing data and
opaque identities for the other fields (`lookup`, `decoder`,
`interpolator`), so frame properties of `load()` can be stated. -/
structure SourceState where
  data : PVal
  lookupId : Nat
  decoderId : Nat
  interpolatorId : Nat

/-- `CommandLineConfig.load` as a state transformer: parse the argument
list into a fresh `IgnoreCaseDict`, and only on success assign it to
`self._data` as the final step. -/
def cmdLoad (args : List String) (st : SourceState) :
    Except String Unit × SourceState :=
  match commandLineParse args with
  | .error e => (.error e, st)
  | .ok d => (.ok (), { st with data := .pdict true d })

/-- `IgnoreCaseDict(mapping)` construction from flat string pairs. -/
def igcFromPairs (ps : List (String × String)) : List (String × PVal) :=
  ps.foldl (fun d p => entSet true d p.1 (.pstr p.2)) []

/-- `EnvironmentConfig.load`: `self._data = IgnoreCaseDict(os.environ)`. -/
def envLoad (environ : List (String × String)) (st : SourceState) :
    Except String Unit × SourceState :=
  (.ok (), { st with data := .pdict true (igcFromPairs environ) })

/-- The environment `FileConfig.load` runs against: `_find_file`
(interpolation plus path search, `none` when nothing exists),
`_read_file` (reader resolution, IO and parse), and `os.path.dirname`. -/
structure FileEnv where
  findFile : String → Option (List String) → Option String
  readFile : String → Except String PVal
  dirname : String → String

/-- The `while filename:` loop of `FileConfig.load`, accumulating one
parsed map per `@next` hop (fuel bounds the hop chain; the code itself
would loop forever on a cyclic chain).  Every parsed map must be an
`IgnoreCaseDict`; a non-string `@next` is a `ConfigError`. -/
def fileLoadLoop (env : FileEnv) :
    Nat → String → Option (List String) → List (List (String × PVal)) →
    Except String (List (List (String × PVal)))
  | 0, _, _, _ => .error "hop limit exceeded"
  | fuel + 1, filename, paths, toMerge =>
      match env.findFile filename paths with
      | none => .error ("File " ++ filename ++ " not found")
      | some file =>
          match env.readFile file with
          | .error e => .error e
          | .ok d =>
              match d with
              | .pdict true es =>
                  let popped := entPop true es "@next"
                  let toMerge2 := toMerge ++ [popped.2]
                  match popped.1 with
                  | none => .ok toMerge2
                  | some .pnone => .ok toMerge2
                  | some (.pstr nextFilename) =>
                      let basePath := env.dirname filename
                      let paths2 := if basePath ≠ "" then some [basePath] else paths
                      if nextFilename = "" then .ok toMerge2
                      else fileLoadLoop env fuel nextFilename paths2 toMerge2
                  | some _ => .error "@next must be a str"
              | _ => .error "reader must return an IgnoreCaseDict object"

/-- `FileConfig.load` as a state transformer: the whole `@next` chain is
read and merged into a complete new map before the single final
assignment to `self._data`. -/
def fileLoad (env : FileEnv) (fuel : Nat) (filename : String) (st : SourceState) :
    Except String Unit × SourceState :=
  let r := if filename = "" then .ok [] else fileLoadLoop env fuel filename none []
  match r with
  | .error e => (.error e, st)
  | .ok [] => (.error "IndexError: list index out of range", st)
  | .ok (d0 :: rest) =>
      let d := if rest.isEmpty then d0 else merge_dict d0 rest
      (.ok (), { st with data := .pdict true d })

/-- The environment `UrlConfig.load` runs against: url interpolation via
the environment-first chain lookup, `_open_url` (yielding the content
type, `""` when the header is absent), and reading the response body with
the chosen reader and encoding. -/
structure UrlEnv where
  resolveUrl : String → String
  openUrl : String → Except String String
  readBody : String → ReaderKind → String → Except String PVal

/-- The `while url:` loop of `UrlConfig.load`: per hop, resolve the url,
open it, pick the reader (explicit or inferred via
`UrlConfig._get_reader`), decode with the charset of the content type,
parse, pop `@next`, and keep one (dict-kind, entries) pair per hop. -/
def urlLoadLoop (env : UrlEnv) (registry : List (String × ReaderKind))
    (explicitReader : Option ReaderKind) :
    Nat → String → List (Bool × List (String × PVal)) →
    Except String (List (Bool × List (String × PVal)))
  | 0, _, _ => .error "hop limit exceeded"
  | fuel + 1, url, toMerge =>
      let url2 := env.resolveUrl url
      match env.openUrl url2 with
      | .error e => .error e
      | .ok contentType =>
          let readerE :=
            match explicitReader with
            | some r => Except.ok r
            | none => urlGetReader registry url2 contentType
          match readerE with
          | .error e => .error e
          | .ok reader =>
              let encoding := urlGetEncoding contentType "utf-8"
              match env.readBody url2 reader encoding with
              | .error e => .error e
              | .ok d =>
                  match d with
                  | .pdict ic es =>
                      let popped := entPop ic es "@next"
                      let toMerge2 := toMerge ++ [(ic, popped.2)]
                      match popped.1 with
                      | none => .ok toMerge2
                      | some (.pstr nextUrl) =>
                          if nextUrl = "" then .ok toMerge2
                          else urlLoadLoop env registry explicitReader fuel nextUrl toMerge2
                      | some v =>
                          if pyTruthy v then .error "@next must be a str" else .ok toMerge2
                  | _ => .error "TypeError: pop"

/-- `UrlConfig.load` as a state transformer: only the first hop's map is
checked to be an `IgnoreCaseDict`; all hops are merged into a complete
new map before the single final assignment to `self._data`. -/
def urlLoad (env : UrlEnv) (registry : List (String × ReaderKind))
    (explicitReader : Option ReaderKind) (fuel : Nat) (url : String)
    (st : SourceState) : Except String Unit × SourceState :=
  let r := if url = "" then .ok [] else urlLoadLoop env registry explicitReader fuel url []
  match r with
  | .error e => (.error e, st)
  | .ok [] => (.error "IndexError: list index out of range", st)
  | .ok ((ic, es) :: rest) =>
      if ic then
        let d := if rest.isEmpty then es else merge_dict es (rest.map Prod.snd)
        (.ok (), { st with data := .pdict true d })
      else (.error "reader must return an IgnoreCaseDict object", st)

/-- The environment `S3Config.load` runs against: downloading and parsing
one object (reader resolution by extension included), resolving `@next`
references through the interpolator, and `Transformer.transform` (whose
source, configd's `utils` package, is not under `src/`; it stays an
abstract fold parameter). -/
structure S3Env where
  readObj : String → Except String PVal
  resolveNext : String → Except String String
  transform : List (String × PVal) → List (String × PVal) → List (String × PVal)

/-- `S3Config._read`: read one object, pop `@next`, fold the parsed map
into the accumulator, and recurse while a truthy `@next` remains. -/
def s3ReadLoop (env : S3Env) :
    Nat → String → List (String × PVal) → Except String (List (String × PVal))
  | 0, _, _ => .error "hop limit exceeded"
  | fuel + 1, filename, acc =>
      match env.readObj filename with
      | .error e => .error e
      | .ok d =>
          match d with
          | .pdict ic es =>
              let popped := entPop ic es "@next"
              let acc2 := env.transform acc popped.2
              match popped.1 with
              | none => .ok acc2
              | some next =>
                  if pyTruthy next then
                    match next with
                    | .pstr nf =>
                        match env.resolveNext nf with
                        | .error e => .error e
                        | .ok nf2 => s3ReadLoop env fuel nf2 acc2
                    | _ => .error "@next must be a str"
                  else .ok acc2
          | _ => .error "TypeError: pop"

/-- `S3Config.load`: `data = {}` (a plain dict), `_read` fills it, and the
final statement assigns it to `self._data`. -/
def s3Load (env : S3Env) (fuel : Nat) (filename : String) (st : SourceState) :
    Except String Unit × SourceState :=
  match s3ReadLoop env fuel filename [] with
  | .error e => (.error e, st)
  | .ok d => (.ok (), { st with data := .pdict false d })

/-- `MergeConfig.load` with the children's raw views already taken:
children are loaded, a fresh `IgnoreCaseDict` is built, and with zero
children the method returns that fresh dict early — before the
`self._data` assignment.  The second component is the early-returned
value (`none` when the method falls through to the assignment). -/
def mergeConfigLoad (children : List (List (String × PVal))) (st : SourceState) :
    SourceState × Option PVal :=
  let data : List (String × PVal) := []
  if children.length = 0 then (st, some (.pdict true data))
  else ({ st with data := .pdict true (merge_dict data children) }, none)

/-- The fields of a `ReloadConfig` the claim observes: the `_loaded`
flag, how many periodic tasks were handed to `scheduler.schedule`, and
how many synchronous delegate loads completed. -/
structure ReloadState where
  loaded : Bool
  scheduledTasks : Nat
  delegateLoads : Nat

/-- A `ReloadConfig` as constructed: not loaded, nothing scheduled. -/
def initReloadState : ReloadState :=
  { loaded := false, scheduledTasks := 0, delegateLoads := 0 }

/-- `ReloadConfig.load`: reload the delegate synchronously (a failure
propagates), then schedule the periodic `_reload` task only when the
`_loaded` flag is still unset, and set the flag. -/
def reloadConfigLoad (st : ReloadState) (delegateLoad : Except String Unit) :
    Except String ReloadState :=
  match delegateLoad with
  | .error e => .error e
  | .ok _ =>
      let st2 := { st with delegateLoads := st.delegateLoads + 1 }
      if st2.loaded then .ok st2
      else .ok { st2 with scheduledTasks := st2.scheduledTasks + 1, loaded := true }

/-- A sequence of `load()` calls on the same `ReloadConfig`, each given
its delegate's outcome. -/
def reloadConfigLoadSeq : ReloadState → List (Except String Unit) → Except String ReloadState
  | st, [] => .ok st
  | st, r :: rest =>
      match reloadConfigLoad st r with
      | .error e => .error e
      | .ok st2 => reloadConfigLoadSeq st2 rest

/-- `EventHandler.__call__`: run every callback in registration order,
collecting results; an exception from a callback propagates. -/
def eventHandlerCall : List (Except String PVal) → Except String (List PVal)
  | [] => .ok []
  | c :: rest =>
      match c with
      | .error e => .error e
      | .ok v =>
          match eventHandlerCall rest with
          | .error e => .error e
          | .ok vs => .ok (v :: vs)

/-- What one periodic `_reload` invocation did. -/
structure ReloadOutcome where
  loadFailureLogged : Bool
  updatedCalled : Bool
  updateFailureLogged : Bool

/-- `ReloadConfig._reload`, the periodic callback: the delegate reload
sits in its own try/except (failures are logged), then the `updated`
event is fired inside a second try/except (subscriber failures are
logged); the result reports what was caught. -/
def reloadConfigReload (delegateLoad : Except String Unit)
    (callbacks : List (Except String PVal)) : Except String ReloadOutcome :=
  let loadLogged :=
    match delegateLoad with
    | .error _ => true
    | .ok _ => false
  match eventHandlerCall callbacks with
  | .error _ =>
      .ok { loadFailureLogged := loadLogged, updatedCalled := true,
            updateFailureLogged := true }
  | .ok _ =>
      .ok { loadFailureLogged := loadLogged, updatedCalled := true,
            updateFailureLogged := false }

/-- A two-level structure of plain `dict`s whose leaves are raw
(uninterpreted) strings — the shape `IniReader.read` actually returns. -/
def twoLevelPlainRaw (v : PVal) : Prop :=
  ∃ es, v = PVal.pdict false es ∧
    ∀ p ∈ es, ∃ os, p.2 = PVal.pdict false os ∧
      ∀ q ∈ os, ∃ s, q.2 = PVal.pstr s

/-! Helper lemmas. -/

/-- A dictionary key always matches itself. -/
theorem strKeyEq_refl (ic : Bool) (k : String) : strKeyEq ic k k = true := by
  cases ic <;> simp [strKeyEq]

/-- Splitting a delimiter-free character list yields one piece. -/
theorem pySplitChars_no_delim (d : Char) (cs : List Char) :
    ∀ acc, cs.any (· = d) = false →
      pySplitChars d cs acc = [String.mk (acc.reverse ++ cs)] := by
  induction cs with
  | nil => intro acc _; simp [pySplitChars]
  | cons c rest ih =>
      intro acc h
      simp only [List.any_cons, Bool.or_eq_false_iff, decide_eq_false_iff_not] at h
      rw [pySplitChars, if_neg h.1, ih (c :: acc) (by simpa using h.2)]
      simp

/-- When the delimiter occurs, the head piece is the text before its
first occurrence. -/
theorem pySplitChars_head_delim (d : Char) (cs : List Char) :
    ∀ acc, cs.any (· = d) = true →
      (pySplitChars d cs acc).headD "" =
        String.mk (acc.reverse ++ cs.takeWhile (fun x => x ≠ d)) := by
  induction cs with
  | nil => intro acc h; simp at h
  | cons c rest ih =>
      intro acc h
      by_cases hc : c = d
      · subst hc
        rw [pySplitChars, if_pos rfl]
        simp [List.takeWhile_cons]
      · rw [pySplitChars, if_neg hc,
          ih (c :: acc) (by simpa [hc] using h)]
        simp [List.takeWhile_cons, hc]

/-- A delimiter-free key splits into itself alone. -/
theorem pySplit_self_of_not_contains (key : String) (h : pyContains key '.' = false) :
    pySplit '.' key = [key] := by
  unfold pySplit
  rw [pySplitChars_no_delim '.' key.toList [] (by simpa [pyContains] using h)]
  rfl

/-- A key containing the delimiter is never equal to the head piece of
its own split. -/
theorem pySplit_head_ne_of_contains (key : String) (h : pyContains key '.' = true) :
    key ≠ (pySplit '.' key).headD "" := by
  unfold pySplit
  rw [pySplitChars_head_delim '.' key.toList [] (by simpa [pyContains] using h)]
  intro heq
  have hlist : key.toList = key.toList.takeWhile (fun x => x ≠ '.') := by
    have := congrArg String.toList heq
    simpa using this
  have hall := List.takeWhile_eq_self_iff.mp hlist.symm
  simp only [pyContains, List.any_eq_true, decide_eq_true_eq] at h
  obtain ⟨x, hx, rfl⟩ := h
  have := hall _ hx
  simp at this

/-! Claim C1. -/

/-- C1: `BaseDataConfig.get_raw` tries an exact case-insensitive match
first and returns it when present; when absent, a delimiter-free key is
simply absent, while a key containing `'.'` is split and walked through
successive nested-map lookups (absent on a missing segment or a
non-mapping intermediate); in particular, over `{"a": {"b": 5}}`,
`"a.b"` yields `5` while `"a.c"` and `"a.b.c"` are absent. -/
theorem C1_get_raw_exact_then_nested :
    (∀ (data : List (String × PVal)) (key : String) (v : PVal),
        entGet true data key = v → v ≠ PVal.pnone → get_raw data key = v) ∧
    (∀ (data : List (String × PVal)) (key : String),
        entGet true data key = PVal.pnone → pyContains key '.' = false →
        get_raw data key = PVal.pnone) ∧
    (∀ (data : List (String × PVal)) (key : String),
        entGet true data key = PVal.pnone → pyContains key '.' = true →
        get_raw data key =
          walkNested (entGet true data ((pySplit '.' key).headD ""))
            (pySplit '.' key).tail) ∧
    get_raw [("a", PVal.pdict true [("b", PVal.pint 5)])] "a.b" = PVal.pint 5 ∧
    get_raw [("a", PVal.pdict true [("b", PVal.pint 5)])] "a.c" = PVal.pnone ∧
    get_raw [("a", PVal.pdict true [("b", PVal.pint 5)])] "a.b.c" = PVal.pnone := by
  refine ⟨?_, ?_, ?_, rfl, rfl, rfl⟩
  · intro data key v h hv
    cases v <;> simp [get_raw, h] <;> exact absurd rfl hv
  · intro data key h hc
    have hk := pySplit_self_of_not_contains key hc
    simp [get_raw, h, hk]
  · intro data key h hc
    have hk := pySplit_head_ne_of_contains key hc
    simp only [get_raw, h]
    rw [if_neg hk]

/-- Witness for C1 at concrete inputs. -/
theorem C1_get_raw_exact_then_nested_witness :
    get_raw [("k", PVal.pstr "v")] "k" = PVal.pstr "v" ∧
    get_raw [("x", PVal.pnone)] "x" = PVal.pnone ∧
    get_raw [("a", PVal.pdict true [("b", PVal.pint 5)])] "a.b" =
      walkNested (entGet true [("a", PVal.pdict true [("b", PVal.pint 5)])]
        ((pySplit '.' "a.b").headD "")) (pySplit '.' "a.b").tail := by
  refine ⟨?_, ?_, ?_⟩
  · exact C1_get_raw_exact_then_nested.1 [("k", PVal.pstr "v")] "k" (PVal.pstr "v")
      rfl (fun h => nomatch h)
  · exact C1_get_raw_exact_then_nested.2.1 [("x", PVal.pnone)] "x" rfl rfl
  · exact C1_get_raw_exact_then_nested.2.2.1 [("a", PVal.pdict true [("b", PVal.pint 5)])]
      "a.b" rfl rfl

/-! Claim C2. -/

/-- The reversed-order search of `ChainConfig.get_value` yields `none`
when every child reports a miss. -/
theorem chainGetValueRev_all_none (key : String) (ty : PyType) :
    ∀ l : List ConfigView, (∀ c ∈ l, c.value key ty = PVal.pnone) →
      chainGetValueRev key ty l = none := by
  intro l
  induction l with
  | nil => intro _; rfl
  | cons c rest ih =>
      intro h
      rw [chainGetValueRev, h c (by simp)]
      exact ih fun x hx => h x (by simp [hx])

/-- C2: `ChainConfig` searches its children in reverse order, so the last
child with a non-absent value wins for both `get_raw` and `get_value`;
when every child misses, `get_value` falls back to the (lazily evaluated)
default; in particular, with A holding `x = 1, y = 7` and B holding
`x = 2`, the chain resolves `x` to B's `2` and `y` to A's `7`. -/
theorem C2_chain_reverse_precedence :
    (∀ (cs : List ConfigView) (v : ConfigView) (key : String),
        v.raw key ≠ PVal.pnone → chainGetRaw (cs ++ [v]) key = v.raw key) ∧
    (∀ (cs : List ConfigView) (v : ConfigView) (key : String),
        v.raw key = PVal.pnone → chainGetRaw (cs ++ [v]) key = chainGetRaw cs key) ∧
    (∀ (cs : List ConfigView) (key : String) (ty : PyType) (d : PyDefault),
        (∀ c ∈ cs, c.value key ty = PVal.pnone) →
        chainGetValue cs key ty d = evalDefault d) ∧
    chainGetValue
      [dataConfigView id (fun v _ => v) [("x", PVal.pint 1), ("y", PVal.pint 7)],
       dataConfigView id (fun v _ => v) [("x", PVal.pint 2)]]
      "x" PyType.tobject (PyDefault.val PVal.pnone) = PVal.pint 2 ∧
    chainGetValue
      [dataConfigView id (fun v _ => v) [("x", PVal.pint 1), ("y", PVal.pint 7)],
       dataConfigView id (fun v _ => v) [("x", PVal.pint 2)]]
      "y" PyType.tobject (PyDefault.val PVal.pnone) = PVal.pint 7 := by
  refine ⟨?_, ?_, ?_, rfl, rfl⟩
  · intro cs v key hv
    unfold chainGetRaw
    rw [List.reverse_append]
    cases h : v.raw key <;> simp only [List.reverse_singleton, List.singleton_append,
      chainGetRawRev, h] <;> try rfl
    exact absurd h hv
  · intro cs v key hv
    unfold chainGetRaw
    rw [List.reverse_append]
    simp only [List.reverse_singleton, List.singleton_append, chainGetRawRev, hv]
    rfl
  · intro cs key ty d h
    unfold chainGetValue
    rw [chainGetValueRev_all_none key ty cs.reverse
      (fun c hc => h c (List.mem_reverse.mp hc))]

/-- Witness for C2 at concrete inputs. -/
theorem C2_chain_reverse_precedence_witness :
    chainGetRaw [dataConfigView id (fun v _ => v) [("x", PVal.pint 2)]] "x" =
      PVal.pint 2 ∧
    chainGetValue [] "k" PyType.tint (PyDefault.func fun _ => PVal.pint 9) =
      PVal.pint 9 := by
  constructor
  · exact C2_chain_reverse_precedence.1 []
      (dataConfigView id (fun v _ => v) [("x", PVal.pint 2)]) "x" (fun h => nomatch h)
  · exact C2_chain_reverse_precedence.2.2.1 [] "k" PyType.tint
      (PyDefault.func fun _ => PVal.pint 9) (fun c hc => absurd hc (List.not_mem_nil c))

/-! Claim C9. -/

/-- C9: a key whose raw lookup yields `None` is indistinguishable from a
missing key across the public interface — even when the backing map
physically stores `None` for it: containment is false, `get_value`
returns the (lazily evaluated) default untouched by the interpolator and
decoder (the result is the same for every `interp`/`decode`), and indexed
access raises `KeyError`. -/
theorem C9_none_value_indistinguishable :
    ∀ (interp : String → String) (decode : PVal → PyType → PVal)
      (data : List (String × PVal)) (key : String) (ty : PyType)
      (dflt : PyDefault),
      get_raw data key = PVal.pnone →
        configContains data key = false ∧
        get_value interp decode data key ty dflt = evalDefault dflt ∧
        configGetItem interp decode data key = none := by
  intro interp decode data key ty dflt h
  refine ⟨?_, ?_, ?_⟩
  · simp [configContains, h]
  · simp [get_value, h]
  · simp [configGetItem, get_value, h, evalDefault]

/-- Witness for C9: the backing map physically stores `None` at `"k"`. -/
theorem C9_none_value_indistinguishable_witness :
    ("k", PVal.pnone) ∈ [("k", PVal.pnone)] ∧
    configContains [("k", PVal.pnone)] "k" = false ∧
    get_value id (fun v _ => v) [("k", PVal.pnone)] "k" PyType.tstr
      (PyDefault.func fun _ => PVal.pstr "d") = PVal.pstr "d" ∧
    configGetItem id (fun v _ => v) [("k", PVal.pnone)] "k" = none := by
  have h := C9_none_value_indistinguishable id (fun v _ => v) [("k", PVal.pnone)]
    "k" PyType.tstr (PyDefault.func fun _ => PVal.pstr "d") rfl
  exact ⟨by simp, h.1, h.2.1, h.2.2⟩

/-! Claim C5. -/

/-- C5: the `CommandLineConfig.load` token grammar: a token with no
leading dash and no `'='` is a malformed-argument error; a `--`/`-` token
without `'='` takes the next token as its value, and with no token left
it is a missing-value error naming the key; with `'='`, key and value are
the trimmed texts around it; thus
`["--name=value", "-x", "1", "bare=2"]` parses to
`{"name": "value", "x": "1", "bare": "2"}`. -/
theorem C5_command_line_grammar :
    (∀ (t : String) (rest : List String) (data : List (String × PVal)),
        strStartsWith t "--" = false → strStartsWith t "-" = false →
        pyFind t '=' = none →
        parseArgsLoop data (t :: rest) =
          .error ("Unrecognized argument " ++ t ++ " format")) ∧
    (∀ (t : String) (data : List (String × PVal)),
        strStartsWith t "--" = true → pyFind t '=' = none →
        parseArgsLoop data [t] =
          .error ("Value for argument " ++ pySliceFrom t 2 ++ " is missing")) ∧
    (∀ (t v : String) (rest : List String) (data : List (String × PVal)),
        strStartsWith t "--" = true → pyFind t '=' = none →
        parseArgsLoop data (t :: v :: rest) =
          parseArgsLoop (entSet true data (pySliceFrom t 2) (.pstr v)) rest) ∧
    commandLineParse ["--name=value", "-x", "1", "bare=2"] =
      .ok [("name", .pstr "value"), ("x", .pstr "1"), ("bare", .pstr "2")] ∧
    commandLineParse ["bad"] = .error "Unrecognized argument bad format" ∧
    commandLineParse ["--missing"] =
      .error "Value for argument missing is missing" := by
  refine ⟨?_, ?_, ?_, rfl, rfl, rfl⟩
  · intro t rest data h1 h2 h3
    simp [parseArgsLoop, h1, h2, h3]
  · intro t data h1 h2
    simp [parseArgsLoop, h1, h2]
  · intro t v rest data h1 h2
    simp [parseArgsLoop, h1, h2]

/-- Witness for C5 at concrete inputs. -/
theorem C5_command_line_grammar_witness :
    parseArgsLoop [] ["bad"] = .error "Unrecognized argument bad format" ∧
    parseArgsLoop [] ["--missing"] =
      .error "Value for argument missing is missing" ∧
    parseArgsLoop [] ["--k", "7"] =
      parseArgsLoop (entSet true [] (pySliceFrom "--k" 2) (.pstr "7")) [] := by
  refine ⟨?_, ?_, ?_⟩
  · exact C5_command_line_grammar.1 "bad" [] [] rfl rfl rfl
  · exact C5_command_line_grammar.2.1 "--missing" [] rfl rfl
  · exact C5_command_line_grammar.2.2.1 "--k" "7" [] [] rfl rfl

/-! Claim C10. -/

/-- C10: `MergeConfig.load` with zero children returns the freshly built
empty `IgnoreCaseDict` before the `self._data` assignment, so the whole
state — backing data, lookup, decoder, interpolator — is exactly what it
was before the call. -/
theorem C10_merge_config_empty_load_noop :
    ∀ st : SourceState, mergeConfigLoad [] st = (st, some (PVal.pdict true [])) := by
  intro st
  rfl

/-! Claim C4. -/

/-- Once the `_loaded` flag is set, further successful `load()` calls
only add synchronous delegate reloads, never a second scheduled task. -/
theorem reloadConfigLoadSeq_loaded (n : Nat) :
    ∀ st : ReloadState, st.loaded = true →
      reloadConfigLoadSeq st (List.replicate n (Except.ok ())) =
        Except.ok { st with delegateLoads := st.delegateLoads + n } := by
  induction n with
  | zero => intro st _; simp [reloadConfigLoadSeq]
  | succ m ih =>
      intro st h
      rw [List.replicate_succ]
      have h2 : reloadConfigLoad st (Except.ok ()) =
          Except.ok { st with delegateLoads := st.delegateLoads + 1 } := by
        simp [reloadConfigLoad, h]
      simp only [reloadConfigLoadSeq, h2]
      rw [ih { st with delegateLoads := st.delegateLoads + 1 } h]
      have h3 : st.delegateLoads + 1 + m = st.delegateLoads + (m + 1) := by omega
      rw [h3]

/-- C4: any number `n ≥ 1` of successful `load()` calls on one
`ReloadConfig` schedules exactly one periodic task (the first call sets
the `_loaded` flag) while still reloading the delegate synchronously each
time; and the periodic `_reload` callback never propagates a failure —
whether the delegate reload or a subscriber callback fails — and always
fires the `updated` event. -/
theorem C4_reload_schedule_once_and_resilient :
    (∀ n : Nat, 1 ≤ n →
        reloadConfigLoadSeq initReloadState (List.replicate n (Except.ok ())) =
          Except.ok { loaded := true, scheduledTasks := 1, delegateLoads := n }) ∧
    (∀ (d : Except String Unit) (cbs : List (Except String PVal)),
        ∃ o : ReloadOutcome,
          reloadConfigReload d cbs = Except.ok o ∧ o.updatedCalled = true) := by
  constructor
  · intro n hn
    obtain ⟨m, rfl⟩ : ∃ m, n = m + 1 := ⟨n - 1, by omega⟩
    rw [List.replicate_succ]
    have h1 : reloadConfigLoad initReloadState (Except.ok ()) =
        Except.ok { loaded := true, scheduledTasks := 1, delegateLoads := 1 } := rfl
    simp only [reloadConfigLoadSeq, h1]
    rw [reloadConfigLoadSeq_loaded m _ rfl]
    have h3 : 1 + m = m + 1 := by omega
    rw [h3]
  · intro d cbs
    cases h : eventHandlerCall cbs with
    | error e =>
        refine ⟨⟨(match d with | Except.error _ => true | Except.ok _ => false),
          true, true⟩, ?_, rfl⟩
        simp [reloadConfigReload, h]
    | ok vs =>
        refine ⟨⟨(match d with | Except.error _ => true | Except.ok _ => false),
          true, false⟩, ?_, rfl⟩
        simp [reloadConfigReload, h]

/-- Witness for C4: two successful loads schedule once; a reload whose
delegate fails still returns without raising and fires the event. -/
theorem C4_reload_schedule_once_and_resilient_witness :
    reloadConfigLoadSeq initReloadState (List.replicate 2 (Except.ok ())) =
      Except.ok { loaded := true, scheduledTasks := 1, delegateLoads := 2 } ∧
    ∃ o : ReloadOutcome,
      reloadConfigReload (Except.error "boom") [Except.ok PVal.pnone] =
        Except.ok o ∧ o.updatedCalled = true := by
  exact ⟨C4_reload_schedule_once_and_resilient.1 2 (by omega),
    C4_reload_schedule_once_and_resilient.2 (Except.error "boom") [Except.ok PVal.pnone]⟩

/-! Claim C3. -/

/-- Counterexample to C3: `IniReader.read` builds its result with plain
`dict`s (`data = {}` in configd/readers.py), so the returned structure is
not a Case-Insensitive Map: the section stored as `"DB"` is found under
`"DB"` but not under `"db"`. -/
theorem C3_ini_reader_counterexample :
    PVal.get (iniRead [("DB", [("host", "h")])]) "DB" =
      PVal.pdict false [("host", PVal.pstr "h")] ∧
    PVal.get (iniRead [("DB", [("host", "h")])]) "db" = PVal.pnone ∧
    PVal.pdict false [("host", PVal.pstr "h")] ≠ PVal.pnone := by
  refine ⟨rfl, rfl, fun h => nomatch h⟩

/-- C3 as amended: `IniReader.read` returns a two-level structure of
plain (case-sensitively addressed) `dict`s whose leaves are the raw
uninterpreted option strings — no type coercion at parse time; because it
is not an `IgnoreCaseDict`, `FileConfig.load` rejects it with the
`ConfigError` "reader must return an IgnoreCaseDict object". -/
theorem C3_ini_reader_plain_two_level_raw :
    (∀ sections, twoLevelPlainRaw (iniRead sections)) ∧
    PVal.get (PVal.get (iniRead [("s", [("o", "v")])]) "s") "o" = PVal.pstr "v" ∧
    fileLoad
      { findFile := fun f _ => some f
      , readFile := fun _ => Except.ok (iniRead [("DB", [("host", "h")])])
      , dirname := fun _ => "" } 3 "config.ini" ⟨PVal.pnone, 0, 0, 0⟩ =
      (Except.error "reader must return an IgnoreCaseDict object",
        ⟨PVal.pnone, 0, 0, 0⟩) := by
  refine ⟨?_, rfl, rfl⟩
  intro sections
  refine ⟨_, rfl, ?_⟩
  intro p hp
  obtain ⟨⟨sec, opts⟩, _, rfl⟩ := List.mem_map.mp hp
  refine ⟨_, rfl, ?_⟩
  intro q hq
  obtain ⟨⟨opt, v⟩, _, rfl⟩ := List.mem_map.mp hq
  exact ⟨v, rfl⟩

/-- Witness for C3's amended theorem at a concrete ini structure. -/
theorem C3_ini_reader_plain_two_level_raw_witness :
    twoLevelPlainRaw (iniRead [("s", [("o", "v")])]) :=
  C3_ini_reader_plain_two_level_raw.1 [("s", [("o", "v")])]

/-! Claim C7. -/

/-- Every entry measure is positive. -/
theorem entsSize_pos : ∀ es : List (String × PVal), 1 ≤ entsSize es := by
  intro es
  induction es using entsSize.induct <;> simp [entsSize] <;> omega

/-- The merge loop ignores any fuel beyond the `entsSize` of its source:
two sufficient fuels give the same result. -/
theorem mergePropsFuel_congr :
    ∀ (f1 f2 : Nat) (icd : Bool) (dst src : List (String × PVal)),
      entsSize src ≤ f1 → entsSize src ≤ f2 →
      mergePropsFuel f1 icd dst src = mergePropsFuel f2 icd dst src := by
  intro f1
  induction f1 with
  | zero =>
      intro f2 icd dst src h1 h2
      have := entsSize_pos src
      omega
  | succ g ih =>
      intro f2 icd dst src h1 h2
      obtain ⟨h, rfl⟩ : ∃ h, f2 = h + 1 := by
        have := entsSize_pos src
        exact ⟨f2 - 1, by omega⟩
      cases src with
      | nil => rfl
      | cons p rest =>
          obtain ⟨key, srcVal⟩ := p
          have hrest := entsSize_pos rest
          have hb1 : entsSize (pvalEntries srcVal) ≤ g := by
            cases srcVal <;> simp only [entsSize, pvalEntries] at h1 ⊢ <;> omega
          have hb2 : entsSize (pvalEntries srcVal) ≤ h := by
            cases srcVal <;> simp only [entsSize, pvalEntries] at h2 ⊢ <;> omega
          have hb3 : entsSize rest ≤ g := by
            cases srcVal <;> simp only [entsSize] at h1 <;> omega
          have hb4 : entsSize rest ≤ h := by
            cases srcVal <;> simp only [entsSize] at h2 <;> omega
          simp only [mergePropsFuel]
          rw [ih h false (pvalEntries (entGet icd dst key)) (pvalEntries srcVal) hb1 hb2]
          exact ih h icd _ rest hb3 hb4

/-- `pvalIsNone` is false exactly on non-`None` values. -/
theorem pvalIsNone_eq_false (v : PVal) (h : v ≠ PVal.pnone) : pvalIsNone v = false := by
  cases v <;> first | rfl | exact absurd rfl h

/-- Re-assigning the value a key already holds leaves the dict unchanged
(`dst[key] = dst.get(key)` is a no-op when the key is present). -/
theorem entSet_entGet_self (ic : Bool) (key : String) :
    ∀ dst : List (String × PVal), entGet ic dst key ≠ PVal.pnone →
      entSet ic dst key (entGet ic dst key) = dst := by
  intro dst
  induction dst with
  | nil => intro h; exact absurd rfl h
  | cons p rest ih =>
      obtain ⟨k, v⟩ := p
      intro h
      cases hk : strKeyEq ic k key with
      | true => simp [entGet, entSet, hk]
      | false =>
          simp only [entGet, entSet, hk] at h ⊢
          simp [Bool.false_eq_true, if_neg] at h ⊢
          exact ih h

/-- Counterexample to C7: over `dst = {"k": 1}` and `src = {"k": "x"}`
the two values are both scalars — the same "kind of container" in the
claim's partition — yet the code keeps the destination's `1` (the exact
runtime types differ), where the claim's rule would have the source's
`"x"` overwrite it. -/
theorem C7_merge_properties_counterexample :
    merge_properties (PVal.pdict false [("k", PVal.pint 1)])
        (PVal.pdict false [("k", PVal.pstr "x")]) =
      PVal.pdict false [("k", PVal.pint 1)] ∧
    containerKind (PVal.pint 1) = containerKind (PVal.pstr "x") ∧
    PVal.pdict false [("k", PVal.pint 1)] ≠
      PVal.pdict false [("k", PVal.pstr "x")] := by
  refine ⟨?_, rfl, by simp⟩
  simp only [merge_properties, merge_properties_entries]
  norm_num [entsSize]
  rfl

/-- C7 as amended: `merge_properties` adopts the whole source when the
destination is empty; otherwise it folds the source's entries one key at
a time, each key's outcome given by `mergeOneVal`: a `None` on either
side adopts the source value; a differing *exact runtime type* (not
container kind) keeps the destination; two plain `dict`s merge
recursively; otherwise the source overwrites.  The nested-dict example
shows the recursive branch, the list-vs-dict example the type-mismatch
branch. -/
theorem C7_merge_properties_amended :
    (∀ (icd ics : Bool) (sd : List (String × PVal)),
        merge_properties (PVal.pdict icd []) (PVal.pdict ics sd) = PVal.pdict icd sd) ∧
    (∀ (icd : Bool) (dst : List (String × PVal)) (key : String) (sv : PVal)
        (rest : List (String × PVal)),
        merge_properties_entries icd dst ((key, sv) :: rest) =
          merge_properties_entries icd
            (entSet icd dst key (mergeOneVal (entGet icd dst key) sv)) rest) ∧
    (∀ sv, mergeOneVal PVal.pnone sv = sv) ∧
    (∀ dv, mergeOneVal dv PVal.pnone = PVal.pnone) ∧
    (∀ dv sv, dv ≠ PVal.pnone → sv ≠ PVal.pnone → ptype dv ≠ ptype sv →
        mergeOneVal dv sv = dv) ∧
    (∀ dv sv, dv ≠ PVal.pnone → sv ≠ PVal.pnone → ptype dv = ptype sv →
        ptype dv ≠ PTypeTag.tagDict false → mergeOneVal dv sv = sv) ∧
    (∀ dd sd, mergeOneVal (PVal.pdict false dd) (PVal.pdict false sd) =
        PVal.pdict false
          (if dd.isEmpty then sd else merge_properties_entries false dd sd)) ∧
    merge_properties
        (PVal.pdict false [("x", PVal.pdict false [("p", PVal.pint 1), ("q", PVal.pint 2)])])
        (PVal.pdict false [("x", PVal.pdict false [("q", PVal.pint 9)])]) =
      PVal.pdict false
        [("x", PVal.pdict false [("p", PVal.pint 1), ("q", PVal.pint 9)])] ∧
    merge_properties (PVal.pdict false [("k", PVal.pdict false [("a", PVal.pint 1)])])
        (PVal.pdict false [("k", PVal.plist [PVal.pint 3])]) =
      PVal.pdict false [("k", PVal.pdict false [("a", PVal.pint 1)])] := by
  refine ⟨?_, ?_, ?_, ?_, ?_, ?_, ?_, ?_, ?_⟩
  · intro icd ics sd
    simp [merge_properties]
  · intro icd dst key sv rest
    have hpos := entsSize_pos ((key, sv) :: rest)
    obtain ⟨g, hg⟩ : ∃ g, entsSize ((key, sv) :: rest) = g + 1 :=
      ⟨entsSize ((key, sv) :: rest) - 1, by omega⟩
    have hb1 : entsSize (pvalEntries sv) ≤ g := by
      have := entsSize_pos rest
      cases sv <;> simp only [entsSize, pvalEntries] at hg ⊢ <;> omega
    have hb3 : entsSize rest ≤ g := by
      cases sv <;> simp only [entsSize] at hg <;> omega
    show mergePropsFuel (entsSize ((key, sv) :: rest)) icd dst ((key, sv) :: rest) = _
    rw [hg]
    simp only [mergePropsFuel]
    rw [mergePropsFuel_congr g (entsSize (pvalEntries sv)) false
      (pvalEntries (entGet icd dst key)) (pvalEntries sv) hb1 (Nat.le_refl _)]
    rw [mergePropsFuel_congr g (entsSize rest) icd _ rest hb3 (Nat.le_refl _)]
    show mergePropsFuel (entsSize rest) icd _ rest = mergePropsFuel (entsSize rest) icd _ rest
    congr 1
    unfold mergeOneVal
    by_cases h1 : (pvalIsNone sv || pvalIsNone (entGet icd dst key)) = true
    · rw [if_pos h1, if_pos h1]
    · rw [if_neg h1, if_neg h1]
      have hdv : entGet icd dst key ≠ PVal.pnone := by
        intro hd
        simp [hd, pvalIsNone] at h1
      by_cases h2 : ptype sv ≠ ptype (entGet icd dst key)
      · rw [if_pos h2, if_pos h2, entSet_entGet_self icd key dst hdv]
      · rw [if_neg h2, if_neg h2]
        by_cases h3 : ptype (entGet icd dst key) = PTypeTag.tagDict false
        · rw [if_pos h3, if_pos h3]
          rfl
        · rw [if_neg h3, if_neg h3]
  · intro sv
    simp [mergeOneVal, pvalIsNone]
  · intro dv
    simp [mergeOneVal, pvalIsNone]
  · intro dv sv h1 h2 h3
    unfold mergeOneVal
    rw [pvalIsNone_eq_false sv h2, pvalIsNone_eq_false dv h1]
    simp only [Bool.or_self, Bool.false_eq_true, if_false]
    rw [if_pos (Ne.symm h3)]
  · intro dv sv h1 h2 h3 h4
    unfold mergeOneVal
    rw [pvalIsNone_eq_false sv h2, pvalIsNone_eq_false dv h1]
    simp only [Bool.or_self, Bool.false_eq_true, if_false]
    rw [if_neg (fun hne => hne h3.symm), if_neg h4]
  · intro dd sd
    simp [mergeOneVal, pvalIsNone, ptype, pvalEntries]
  · simp only [merge_properties, merge_properties_entries]
    norm_num [entsSize]
    rfl
  · simp only [merge_properties, merge_properties_entries]
    norm_num [entsSize]
    rfl

/-- Witness for C7's amended theorem: the type-mismatch rule keeps the
destination for an int-vs-string pair, and the same-scalar-type rule lets
the source overwrite. -/
theorem C7_merge_properties_amended_witness :
    mergeOneVal (PVal.pint 1) (PVal.pstr "x") = PVal.pint 1 ∧
    mergeOneVal (PVal.pint 1) (PVal.pint 2) = PVal.pint 2 := by
  constructor
  · exact C7_merge_properties_amended.2.2.2.2.1 (PVal.pint 1) (PVal.pstr "x")
      (fun h => nomatch h) (fun h => nomatch h) (fun h => nomatch h)
  · exact C7_merge_properties_amended.2.2.2.2.2.1 (PVal.pint 1) (PVal.pint 2)
      (fun h => nomatch h) (fun h => nomatch h) rfl (fun h => nomatch h)

/-! Claim C6. -/

/-- Counterexample to C6: for content type `x-foo/json` the last
separator among `'.'`, `'-'`, `'/'` is the `'/'`, so the claim's rule
yields subtype `json` — a registered reader — yet the code checks `'-'`
before `'/'`, extracts `foo/json`, finds no reader, and (the url path
having no extension either) raises the unsupported-content-type error. -/
theorem C6_url_reader_counterexample :
    urlGetReader defaultReaders "http://example.com/config" "x-foo/json" =
      Except.error ("Response from http://example.com/config provided content type " ++
        "x-foo/json which is not supported") ∧
    claimSubtype "x-foo/json" = "json" ∧
    get_reader defaultReaders (claimSubtype "x-foo/json") = some ReaderKind.json := by
  refine ⟨rfl, rfl, rfl⟩

/-- C6 as amended: `UrlConfig` strips `';'`-delimited parameters from the
content type and extracts the reader name by checking for `'.'`, then
`'-'`, then `'/'` in that priority order, splitting at the last
occurrence of the first separator present (falling back to a
file-extension suffix of the url path); the body is decoded with the
`charset=` parameter of the content type, defaulting to `utf-8`.  So
`application/json;charset=iso-8859-1` selects the JSON reader and the
`iso-8859-1` encoding, `text/vnd.yaml` and `text/x-yaml` select the YAML
reader, and a bare `http://example.com/config.json` url selects the JSON
reader by its path suffix. -/
theorem C6_url_reader_inference_amended :
    urlGetReader defaultReaders "http://config.test/cfg"
        "application/json;charset=iso-8859-1" = Except.ok ReaderKind.json ∧
    urlGetEncoding "application/json;charset=iso-8859-1" "utf-8" = "iso-8859-1" ∧
    urlGetReader defaultReaders "http://config.test/cfg" "text/vnd.yaml" =
      Except.ok ReaderKind.yaml ∧
    urlGetReader defaultReaders "http://config.test/cfg" "text/x-yaml" =
      Except.ok ReaderKind.yaml ∧
    urlGetEncoding "text/vnd.yaml" "utf-8" = "utf-8" ∧
    urlGetReader defaultReaders "http://example.com/config.json" "" =
      Except.ok ReaderKind.json ∧
    (∀ dflt : String, urlGetEncoding "" dflt = dflt) := by
  refine ⟨rfl, rfl, rfl, rfl, rfl, rfl, ?_⟩
  intro dflt
  rfl

/-! Claim C8. -/

/-- C8: every concrete data-holding source builds its complete new
backing map before assigning it to `self._data` as the final step:
a `load()` that raises leaves the state — data and all other fields —
exactly as it was (error frame), a successful `load()` changes nothing
but the data field (ok shape), and the new map is assembled independently
of the previously visible state (independence).  The three properties are
stated for CommandLine, Environment, File, Url and S3 sources. -/
theorem C8_load_assigns_data_last :
    (∀ (args : List String) (st : SourceState) (e : String) (st' : SourceState),
        cmdLoad args st = (Except.error e, st') → st' = st) ∧
    (∀ (args : List String) (st : SourceState),
        (cmdLoad args st).1 = Except.ok () →
        ∃ d, cmdLoad args st = (Except.ok (), { st with data := d })) ∧
    (∀ (args : List String) (st st2 : SourceState),
        (cmdLoad args st).1 = (cmdLoad args st2).1 ∧
        ((cmdLoad args st).1 = Except.ok () →
          (cmdLoad args st).2.data = (cmdLoad args st2).2.data)) ∧
    (∀ (environ : List (String × String)) (st : SourceState),
        ∃ d, envLoad environ st = (Except.ok (), { st with data := d })) ∧
    (∀ (environ : List (String × String)) (st st2 : SourceState),
        (envLoad environ st).2.data = (envLoad environ st2).2.data) ∧
    (∀ (env : FileEnv) (fuel : Nat) (fn : String) (st : SourceState)
        (e : String) (st' : SourceState),
        fileLoad env fuel fn st = (Except.error e, st') → st' = st) ∧
    (∀ (env : FileEnv) (fuel : Nat) (fn : String) (st : SourceState),
        (fileLoad env fuel fn st).1 = Except.ok () →
        ∃ d, fileLoad env fuel fn st = (Except.ok (), { st with data := d })) ∧
    (∀ (env : FileEnv) (fuel : Nat) (fn : String) (st st2 : SourceState),
        (fileLoad env fuel fn st).1 = (fileLoad env fuel fn st2).1 ∧
        ((fileLoad env fuel fn st).1 = Except.ok () →
          (fileLoad env fuel fn st).2.data = (fileLoad env fuel fn st2).2.data)) ∧
    (∀ (env : UrlEnv) (reg : List (String × ReaderKind)) (er : Option ReaderKind)
        (fuel : Nat) (url : String) (st : SourceState) (e : String) (st' : SourceState),
        urlLoad env reg er fuel url st = (Except.error e, st') → st' = st) ∧
    (∀ (env : UrlEnv) (reg : List (String × ReaderKind)) (er : Option ReaderKind)
        (fuel : Nat) (url : String) (st : SourceState),
        (urlLoad env reg er fuel url st).1 = Except.ok () →
        ∃ d, urlLoad env reg er fuel url st = (Except.ok (), { st with data := d })) ∧
    (∀ (env : UrlEnv) (reg : List (String × ReaderKind)) (er : Option ReaderKind)
        (fuel : Nat) (url : String) (st st2 : SourceState),
        (urlLoad env reg er fuel url st).1 = (urlLoad env reg er fuel url st2).1 ∧
        ((urlLoad env reg er fuel url st).1 = Except.ok () →
          (urlLoad env reg er fuel url st).2.data = (urlLoad env reg er fuel url st2).2.data)) ∧
    (∀ (env : S3Env) (fuel : Nat) (fn : String) (st : SourceState)
        (e : String) (st' : SourceState),
        s3Load env fuel fn st = (Except.error e, st') → st' = st) ∧
    (∀ (env : S3Env) (fuel : Nat) (fn : String) (st : SourceState),
        (s3Load env fuel fn st).1 = Except.ok () →
        ∃ d, s3Load env fuel fn st = (Except.ok (), { st with data := d })) ∧
    (∀ (env : S3Env) (fuel : Nat) (fn : String) (st st2 : SourceState),
        (s3Load env fuel fn st).1 = (s3Load env fuel fn st2).1 ∧
        ((s3Load env fuel fn st).1 = Except.ok () →
          (s3Load env fuel fn st).2.data = (s3Load env fuel fn st2).2.data)) := by
  refine ⟨?_, ?_, ?_, ?_, ?_, ?_, ?_, ?_, ?_, ?_, ?_, ?_, ?_, ?_⟩
  · intro args st e st' h
    cases hp : commandLineParse args <;> simp [cmdLoad, hp] at h
    exact h.2.symm
  · intro args st h
    cases hp : commandLineParse args <;> simp [cmdLoad, hp] at h ⊢
  · intro args st st2
    cases hp : commandLineParse args <;> simp [cmdLoad, hp]
  · intro environ st
    exact ⟨_, rfl⟩
  · intro environ st st2
    rfl
  · intro env fuel fn st e st' h
    cases hr : (if fn = "" then Except.ok [] else fileLoadLoop env fuel fn none []) with
    | error e2 =>
        simp [fileLoad, hr] at h
        exact h.2.symm
    | ok l =>
        cases l with
        | nil =>
            simp [fileLoad, hr] at h
            exact h.2.symm
        | cons d0 rest => simp [fileLoad, hr] at h
  · intro env fuel fn st h
    cases hr : (if fn = "" then Except.ok [] else fileLoadLoop env fuel fn none []) with
    | error e2 => simp [fileLoad, hr] at h
    | ok l =>
        cases l with
        | nil => simp [fileLoad, hr] at h
        | cons d0 rest =>
            exact ⟨PVal.pdict true (if rest.isEmpty then d0 else merge_dict d0 rest),
              by simp [fileLoad, hr]⟩
  · intro env fuel fn st st2
    cases hr : (if fn = "" then Except.ok [] else fileLoadLoop env fuel fn none []) with
    | error e2 => simp [fileLoad, hr]
    | ok l =>
        cases l with
        | nil => simp [fileLoad, hr]
        | cons d0 rest => simp [fileLoad, hr]
  · intro env reg er fuel url st e st' h
    cases hr : (if url = "" then Except.ok [] else urlLoadLoop env reg er fuel url []) with
    | error e2 =>
        simp [urlLoad, hr] at h
        exact h.2.symm
    | ok l =>
        cases l with
        | nil =>
            simp [urlLoad, hr] at h
            exact h.2.symm
        | cons d0 rest =>
            obtain ⟨ic, es⟩ := d0
            cases ic <;> simp [urlLoad, hr] at h
            exact h.2.symm
  · intro env reg er fuel url st h
    cases hr : (if url = "" then Except.ok [] else urlLoadLoop env reg er fuel url []) with
    | error e2 => simp [urlLoad, hr] at h
    | ok l =>
        cases l with
        | nil => simp [urlLoad, hr] at h
        | cons d0 rest =>
            obtain ⟨ic, es⟩ := d0
            cases ic
            · simp [urlLoad, hr] at h
            · exact ⟨PVal.pdict true
                (if rest.isEmpty then es else merge_dict es (rest.map Prod.snd)),
                by simp [urlLoad, hr]⟩
  · intro env reg er fuel url st st2
    cases hr : (if url = "" then Except.ok [] else urlLoadLoop env reg er fuel url []) with
    | error e2 => simp [urlLoad, hr]
    | ok l =>
        cases l with
        | nil => simp [urlLoad, hr]
        | cons d0 rest =>
            obtain ⟨ic, es⟩ := d0
            cases ic <;> simp [urlLoad, hr]
  · intro env fuel fn st e st' h
    cases hr : s3ReadLoop env fuel fn [] with
    | error e2 =>
        simp [s3Load, hr] at h
        exact h.2.symm
    | ok d => simp [s3Load, hr] at h
  · intro env fuel fn st h
    cases hr : s3ReadLoop env fuel fn [] with
    | error e2 => simp [s3Load, hr] at h
    | ok d => exact ⟨PVal.pdict false d, by simp [s3Load, hr]⟩
  · intro env fuel fn st st2
    cases hr : s3ReadLoop env fuel fn [] with
    | error e2 => simp [s3Load, hr]
    | ok d => simp [s3Load, hr]

/-- Witness for C8 at concrete inputs: a malformed command line and a
missing file leave the state untouched; a well-formed command line only
replaces the data field. -/
theorem C8_load_assigns_data_last_witness :
    (cmdLoad ["bad"] ⟨PVal.pnone, 1, 2, 3⟩).2 = ⟨PVal.pnone, 1, 2, 3⟩ ∧
    (∃ d, cmdLoad ["--k=1"] ⟨PVal.pnone, 1, 2, 3⟩ =
      (Except.ok (), { data := d, lookupId := 1, decoderId := 2, interpolatorId := 3 })) ∧
    (fileLoad ⟨fun _ _ => none, fun _ => Except.error "io", fun _ => ""⟩ 1 "f"
      ⟨PVal.pnone, 1, 2, 3⟩).2 = ⟨PVal.pnone, 1, 2, 3⟩ := by
  refine ⟨?_, ?_, ?_⟩
  · exact C8_load_assigns_data_last.1 ["bad"] ⟨PVal.pnone, 1, 2, 3⟩
      "Unrecognized argument bad format" _ rfl
  · exact C8_load_assigns_data_last.2.1 ["--k=1"] ⟨PVal.pnone, 1, 2, 3⟩ rfl
  · exact C8_load_assigns_data_last.2.2.2.2.2.1
      ⟨fun _ _ => none, fun _ => Except.error "io", fun _ => ""⟩ 1 "f"
      ⟨PVal.pnone, 1, 2, 3⟩ "File f not found" _ rfl
